import Mathlib

/-
Verification of the view-lifecycle and asynchronous resource-fetch
orchestration layer of iced_webview_v2.

Shallow embedding of:
  src/fetch.rs            -- bounded recursive HTML+CSS retrieval
  src/util.rs             -- html_escape, resolve_url, is_same_page
  src/webview/advanced.rs -- the Action handlers (epochs, in-flight counter,
                             staged-image flushing, anchor interception)
  src/webview/basic.rs    -- index-based view lookups

External collaborators (the HTTP client, the `url` crate's parser, the
rendering engine behind the `Engine` trait) are modelled as explicit
parameters / oracle functions; the orchestration logic itself is translated
directly from the source.
-/

namespace IcedWebview

/-! ## Constants (src/fetch.rs lines 5-14) -/

/-- Max response size for the main page (10 MB). -/
def MAX_PAGE_SIZE : Nat := 10 * 1024 * 1024

/-- Max response size for a single stylesheet (5 MB). -/
def MAX_CSS_SIZE : Nat := 5 * 1024 * 1024

/-- Max number of external stylesheets to fetch. -/
def MAX_STYLESHEETS : Nat := 50

/-- Max depth for @import chains to prevent infinite loops. -/
def MAX_IMPORT_DEPTH : Nat := 3

/-- Modulus of the u64 navigation epoch (`wrapping_add` arithmetic). -/
def U64_MOD : Nat := 2 ^ 64

/-! ## Stylesheet cache (HashMap<String, String> as an association list) -/

/-- The stylesheet cache: resolved URL -> CSS text. -/
abbrev Cache := List (String × String)

/-- HashMap::contains_key. -/
def containsKey (c : Cache) (k : String) : Bool :=
  c.any (fun p => p.1 == k)

/-- HashMap::insert (only ever called on a key that is absent). -/
def cacheInsert (c : Cache) (k v : String) : Cache :=
  (k, v) :: c

/-- The set of cached URLs. -/
def cacheKeys (c : Cache) : List String :=
  c.map Prod.fst

theorem containsKey_eq_false_iff (c : Cache) (k : String) :
    containsKey c k = false ↔ k ∉ cacheKeys c := by
  rw [← Bool.not_eq_true]
  unfold containsKey cacheKeys
  rw [List.any_eq_true]
  constructor
  · intro h hk
    apply h
    obtain ⟨p, hp, hpk⟩ := List.mem_map.mp hk
    exact ⟨p, hp, by simp [hpk]⟩
  · rintro h ⟨p, hp, hb⟩
    exact h (List.mem_map.mpr ⟨p, hp, by simpa using hb⟩)

theorem mem_cacheKeys_of_containsKey (c : Cache) (k : String)
    (h : containsKey c k = true) : k ∈ cacheKeys c := by
  by_contra hk
  rw [← containsKey_eq_false_iff] at hk
  simp [h] at hk

/-! ## fetch_css_recursive (src/fetch.rs lines 72-99)

The network and the CSS scanner are abstracted:
  `net u`        models `fetch_css(client, u)` — `some text` on success,
                 `none` on any failure (size cap, transport error);
  `imps css url` models `extract_css_imports(&css, url)` — the resolved
                 @import URLs found in `css` whose base URL is `url`.

The Rust function mutates `cache` and issues network requests as a side
effect; the embedding returns the final cache together with the list of
URLs for which an HTTP request was issued (each `net` consultation), in
order.  Recursion in the source is bounded by the `depth > MAX_IMPORT_DEPTH`
guard; here the same recursion is realised structurally over the fuel
`MAX_IMPORT_DEPTH + 2 - depth`, and `fetch_css_recursive_eq` below proves
that the wrapper satisfies exactly the source's recursion equation, so the
fuel never alters the result. -/

/-- Loop body `for import_url in imports { if cache.len() >= MAX_STYLESHEETS
break; recurse }` of fetch_css_recursive (src/fetch.rs lines 93-98),
parameterised by the recursive call. -/
def loopCss (stepF : String → Cache → Cache × List String) :
    List String → Cache → Cache × List String
  | [], cache => (cache, [])
  | u :: rest, cache =>
    if MAX_STYLESHEETS ≤ cache.length then (cache, [])
    else
      let r1 := stepF u cache
      let r2 := loopCss stepF rest r1.1
      (r2.1, r1.2 ++ r2.2)

/-- Fuel-indexed worker for fetch_css_recursive; fuel is always at least
`MAX_IMPORT_DEPTH + 2 - depth` in actual use, so the fuel-0 branch coincides
with the `depth > MAX_IMPORT_DEPTH` refusal. -/
def fetchCssGo (net : String → Option String) (imps : String → String → List String) :
    Nat → String → Cache → Nat → Cache × List String
  | 0, _, cache, _ => (cache, [])
  | fuel + 1, url, cache, depth =>
    if containsKey cache url || decide (MAX_IMPORT_DEPTH < depth) then (cache, [])
    else
      match net url with
      | none => (cache, [url])
      | some css =>
        let cache1 := cacheInsert cache url css
        let r := loopCss (fun u c => fetchCssGo net imps fuel u c (depth + 1)) (imps css url) cache1
        (r.1, url :: r.2)

/-- Model of `fetch_css_recursive` (src/fetch.rs lines 72-99): returns the
final cache and the list of URLs for which an HTTP request was issued. -/
def fetch_css_recursive (net : String → Option String)
    (imps : String → String → List String)
    (url : String) (cache : Cache) (depth : Nat) : Cache × List String :=
  fetchCssGo net imps (MAX_IMPORT_DEPTH + 2 - depth) url cache depth

/-- Faithfulness: the embedding satisfies exactly the recursion equation of
the Rust source (early return on cached URL or exceeded depth; fetch; scan
for imports; insert; guarded recursion over the imports). -/
theorem fetch_css_recursive_eq (net : String → Option String)
    (imps : String → String → List String) (url : String) (cache : Cache) (depth : Nat) :
    fetch_css_recursive net imps url cache depth =
      if containsKey cache url || decide (MAX_IMPORT_DEPTH < depth) then (cache, [])
      else
        match net url with
        | none => (cache, [url])
        | some css =>
          let cache1 := cacheInsert cache url css
          let r := loopCss (fun u c => fetch_css_recursive net imps u c (depth + 1))
                     (imps css url) cache1
          (r.1, url :: r.2) := by
  unfold fetch_css_recursive
  by_cases h : MAX_IMPORT_DEPTH + 1 < depth
  · have h0 : MAX_IMPORT_DEPTH + 2 - depth = 0 := by omega
    have hd : MAX_IMPORT_DEPTH < depth := by omega
    rw [h0]
    simp [fetchCssGo, hd]
  · have h1 : MAX_IMPORT_DEPTH + 2 - depth = (MAX_IMPORT_DEPTH + 1 - depth) + 1 := by omega
    have h2 : MAX_IMPORT_DEPTH + 2 - (depth + 1) = MAX_IMPORT_DEPTH + 1 - depth := by omega
    rw [h1]
    show fetchCssGo net imps ((MAX_IMPORT_DEPTH + 1 - depth) + 1) url cache depth = _
    rw [fetchCssGo, h2]

/-! ## fetch_html (src/fetch.rs lines 28-70)

Abstractions of the HTTP collaborator:
  `baseOk`        — whether `Url::parse(&page_url)` succeeds;
  `sendOk`        — whether `client.get(..).send()` succeeds;
  `contentLength` — `response.content_length()`;
  `bodyOk`        — whether `response.bytes()` succeeds;
  `body`          — the downloaded bytes, carried as the pair of their
                    count (`len`) and their decoded text (`text`,
                    `String::from_utf8_lossy`);
  `links`         — the resolved URLs produced by
                    `extract_stylesheet_links(&html, &base)`.
Error strings reproduce the source's causes without the interpolated
numbers.  The stylesheet phase (cap the link list at MAX_STYLESHEETS, then
fetch each via fetch_css_recursive at depth 0 into one shared cache) is
translated directly. -/

/-- Downloaded response body: byte count plus decoded text. -/
structure HttpBody where
  len : Nat
  text : String
deriving DecidableEq

/-- Model of `fetch_html` (src/fetch.rs lines 28-70). -/
def fetch_html (net : String → Option String) (imps : String → String → List String)
    (baseOk : Bool) (sendOk : Bool) (contentLength : Option Nat) (bodyOk : Bool)
    (body : HttpBody) (links : List String) : Except String (String × Cache) :=
  if !baseOk then .error "relative URL without a base"
  else if !sendOk then .error "error sending request"
  else if (contentLength.map (fun len => decide (MAX_PAGE_SIZE < len))).getD false then
    .error "page too large: content length exceeds byte limit"
  else if !bodyOk then .error "error reading response body"
  else if MAX_PAGE_SIZE < body.len then
    .error "page too large: body exceeds byte limit"
  else
    let capped := if MAX_STYLESHEETS < links.length then links.take MAX_STYLESHEETS else links
    let cache := capped.foldl (fun c u => (fetch_css_recursive net imps u c 0).1) []
    .ok (body.text, cache)

/-- Whether an `Except` result is a success. -/
def exceptIsOk {ε α : Type} : Except ε α → Bool
  | .ok _ => true
  | .error _ => false

/-! ## util.rs -/

/-- Model of `html_escape` (src/util.rs lines 4-9): minimal HTML escaping
for error pages. -/
def html_escape (s : String) : String :=
  ((((s.replace "&" "&amp;").replace "<" "&lt;").replace ">" "&gt;").replace "\"" "&quot;")

/-- A parsed absolute URL, as observed through the accessors the source
uses (`url::Url` is an external dependency; scheme/host/port/path/query/
fragment are its observable components). -/
structure ModelUrl where
  scheme : String
  host : Option String
  port : Option Nat
  path : String
  query : Option String
  fragment : Option String
deriving DecidableEq

/-- Oracle for the `url` crate: `parse` models `Url::parse`, `join` models
`Url::join` on a parsed base, `toStr` models `Url::to_string`. -/
structure UrlOracle where
  parse : String → Option ModelUrl
  join : ModelUrl → String → Option ModelUrl
  toStr : ModelUrl → String

/-- Model of `resolve_url` (src/util.rs lines 15-29): 3-tier fallback —
parse `src` as absolute, else resolve against `baseurl` when nonempty,
else resolve against `page_url`.  The image-spawn loops of
src/webview/advanced.rs lines 313-321 and 367-375 inline this same logic. -/
def resolve_url (o : UrlOracle) (src baseurl page_url : String) : Option ModelUrl :=
  match o.parse src with
  | some u => some u
  | none =>
    match (if baseurl ≠ "" then (o.parse baseurl).bind (fun b => o.join b src) else none) with
    | some u => some u
    | none => (o.parse page_url).bind (fun b => o.join b src)

/-- Model of `is_same_page` (src/util.rs lines 32-38): two URLs refer to the
same page when scheme, host, port, path and query agree (fragment ignored).
src/webview/advanced.rs lines 276-282 inline exactly this conjunction. -/
def is_same_page (a b : ModelUrl) : Bool :=
  a.scheme == b.scheme && a.host == b.host && a.port == b.port
    && a.path == b.path && a.query == b.query

/-! ## basic.rs index lookups (src/webview/basic.rs lines 84-99)

Both functions call `.expect(..)` on a failed lookup, which panics and
aborts the process; the embedding returns `none` exactly on the aborting
path. -/

/-- Model of `index_as_view_id` (src/webview/basic.rs lines 93-98):
`none` models the `.expect("Failed to find that index, ...")` panic. -/
def index_as_view_id (view_ids : List Nat) (index : Nat) : Option Nat :=
  view_ids.get? index

/-- Model of `get_current_view_id` (src/webview/basic.rs lines 84-91):
`none` models either `.expect` panic (unset current index, or an index not
present in `view_ids`). -/
def get_current_view_id (view_ids : List Nat) (current_view_index : Option Nat) : Option Nat :=
  current_view_index.bind (fun i => view_ids.get? i)

/-! ## Invariants of the CSS recursion

`GoodRun net c c' log` captures what one run of the recursion does to the
cache and which requests it issues: the cache only grows; a URL already
cached at the start is never requested; every successfully fetched URL ends
up cached; and no URL whose fetch succeeds is requested twice. -/

def GoodRun (net : String → Option String) (c c' : Cache) (log : List String) : Prop :=
  (∀ k, k ∈ cacheKeys c → k ∈ cacheKeys c') ∧
  (∀ u, u ∈ log → u ∉ cacheKeys c) ∧
  (∀ u, u ∈ log → (net u).isSome = true → u ∈ cacheKeys c') ∧
  (log.filter (fun u => (net u).isSome)).Nodup

theorem goodRun_nil {net : String → Option String} {c : Cache} : GoodRun net c c [] :=
  ⟨fun _ h => h, by simp, by simp, by simp⟩

theorem goodRun_comp {net : String → Option String} {c c1 c2 : Cache}
    {l1 l2 : List String} (h : GoodRun net c c1 l1) (g : GoodRun net c1 c2 l2) :
    GoodRun net c c2 (l1 ++ l2) := by
  obtain ⟨h1, h2, h3, h4⟩ := h
  obtain ⟨g1, g2, g3, g4⟩ := g
  refine ⟨fun k hk => g1 k (h1 k hk), ?_, ?_, ?_⟩
  · intro u hu
    rcases List.mem_append.mp hu with hm | hm
    · exact h2 u hm
    · exact fun hc => g2 u hm (h1 u hc)
  · intro u hu hs
    rcases List.mem_append.mp hu with hm | hm
    · exact g1 u (h3 u hm hs)
    · exact g3 u hm hs
  · rw [List.filter_append, List.nodup_append]
    refine ⟨h4, g4, ?_⟩
    intro u hu1 hu2
    have hu1' := List.mem_filter.mp hu1
    have hu2' := List.mem_filter.mp hu2
    exact g2 u hu2'.1 (h3 u hu1'.1 hu1'.2)

theorem loopCss_good (net : String → Option String)
    (stepF : String → Cache → Cache × List String)
    (hstep : ∀ u c, GoodRun net c (stepF u c).1 (stepF u c).2) :
    ∀ imps c, GoodRun net c (loopCss stepF imps c).1 (loopCss stepF imps c).2 := by
  intro imps
  induction imps with
  | nil =>
    intro c
    simpa [loopCss] using (@goodRun_nil net c)
  | cons u rest ih =>
    intro c
    by_cases h : MAX_STYLESHEETS ≤ c.length
    · simp only [loopCss, if_pos h]
      exact goodRun_nil
    · simp only [loopCss, if_neg h]
      exact goodRun_comp (hstep u c) (ih _)

theorem cacheKeys_insert (c : Cache) (k v : String) :
    cacheKeys (cacheInsert c k v) = k :: cacheKeys c := rfl

theorem fetchCssGo_good (net : String → Option String)
    (imps : String → String → List String) :
    ∀ fuel url c depth,
      GoodRun net c (fetchCssGo net imps fuel url c depth).1
        (fetchCssGo net imps fuel url c depth).2 := by
  intro fuel
  induction fuel with
  | zero =>
    intro url c depth
    exact goodRun_nil
  | succ fuel ih =>
    intro url c depth
    rw [fetchCssGo]
    by_cases hguard : (containsKey c url || decide (MAX_IMPORT_DEPTH < depth)) = true
    · rw [if_pos hguard]
      exact goodRun_nil
    · rw [if_neg hguard]
      have hor : (containsKey c url || decide (MAX_IMPORT_DEPTH < depth)) = false :=
        Bool.eq_false_iff.mpr hguard
      have hck : containsKey c url = false := (Bool.or_eq_false_iff.mp hor).1
      have hurl : url ∉ cacheKeys c := (containsKey_eq_false_iff c url).mp hck
      cases hnet : net url with
      | none =>
        refine ⟨fun _ h => h, ?_, ?_, ?_⟩
        · intro u hu
          simp only [List.mem_singleton] at hu
          subst hu
          exact hurl
        · intro u hu hs
          simp only [List.mem_singleton] at hu
          subst hu
          rw [hnet] at hs
          simp at hs
        · simp [hnet]
      | some css =>
        obtain ⟨g1, g2, g3, g4⟩ :=
          loopCss_good net (fun u c => fetchCssGo net imps fuel u c (depth + 1))
            (fun u c => ih u c (depth + 1)) (imps css url) (cacheInsert c url css)
        refine ⟨?_, ?_, ?_, ?_⟩
        · intro k hk
          exact g1 k (by rw [cacheKeys_insert]; exact List.mem_cons_of_mem _ hk)
        · intro u hu
          rcases List.mem_cons.mp hu with rfl | hm
          · exact hurl
          · intro hc
            exact g2 u hm (by rw [cacheKeys_insert]; exact List.mem_cons_of_mem _ hc)
        · intro u hu hs
          rcases List.mem_cons.mp hu with rfl | hm
          · exact g1 u (by rw [cacheKeys_insert]; exact List.mem_cons_self _ _)
          · exact g3 u hm hs
        · have hsucc : (net url).isSome = true := by rw [hnet]; rfl
          simp only [List.filter_cons, hsucc, if_pos]
          refine List.Nodup.cons ?_ g4
          intro hmem
          have hm := List.mem_filter.mp hmem
          exact g2 url hm.1 (by rw [cacheKeys_insert]; exact List.mem_cons_self _ _)

theorem fetch_css_recursive_good (net : String → Option String)
    (imps : String → String → List String) (url : String) (cache : Cache) (depth : Nat) :
    GoodRun net cache (fetch_css_recursive net imps url cache depth).1
      (fetch_css_recursive net imps url cache depth).2 :=
  fetchCssGo_good net imps _ url cache depth

/-! ## Concrete scenarios for the CSS recursion -/

/-- Network oracle where the fetch of stylesheet "B" fails and every other
fetch succeeds. -/
def c3net : String → Option String :=
  fun u => if u == "B" then none else some ("css" ++ u)

/-- Import structure: stylesheet A imports B then C; C imports B again. -/
def c3imps : String → String → List String :=
  fun _ url => if url == "A" then ["B", "C"] else if url == "C" then ["B"] else []

/-- Network oracle for a cyclic import graph where every fetch succeeds. -/
def c3netCyc : String → Option String :=
  fun u => some ("css" ++ u)

/-- Cyclic import structure: A imports B and B imports A. -/
def c3impsCyc : String → String → List String :=
  fun _ url => if url == "A" then ["B"] else if url == "B" then ["A"] else []

/-- Trivial network/scanner oracles used for witness instantiations. -/
def wNet : String → Option String := fun _ => none

/-- Trivial import scanner used for witness instantiations. -/
def wImps : String → String → List String := fun _ _ => []

/-- Claim C3 counterexample: on a page whose root stylesheet A imports B and
then C, where the fetch of B fails and C imports B again, the recursion
issues the request for B twice (request log A, B, C, B) — so "no URL is
fetched twice for one page" is false as stated.  (The cyclic A/B graph, by
contrast, terminates with each URL fetched once.) -/
theorem C3_counterexample :
    (fetch_css_recursive c3net c3imps "A" [] 0).2 = ["A", "B", "C", "B"] ∧
    ¬ (fetch_css_recursive c3net c3imps "A" [] 0).2.Nodup ∧
    (fetch_css_recursive c3netCyc c3impsCyc "A" [] 0).2 = ["A", "B"] := by
  refine ⟨by decide, by decide, by decide⟩

/-- Claim C3 (amended): the recursion terminates on every input including
cyclic import graphs (the embedding is a total function); recursion beyond
the import-depth cap is refused; a URL already present in the cache is never
fetched again; and no URL whose fetch succeeds is fetched twice for one page
(a URL whose fetch failed may be re-requested when imported again). -/
theorem C3_css_recursion_bounded (net : String → Option String)
    (imps : String → String → List String) (url : String) (cache : Cache) (depth : Nat) :
    (MAX_IMPORT_DEPTH < depth → fetch_css_recursive net imps url cache depth = (cache, [])) ∧
    (∀ u, u ∈ cacheKeys cache → u ∉ (fetch_css_recursive net imps url cache depth).2) ∧
    ((fetch_css_recursive net imps url cache depth).2.filter
      (fun u => (net u).isSome)).Nodup := by
  obtain ⟨_, h2, _, h4⟩ := fetch_css_recursive_good net imps url cache depth
  refine ⟨?_, fun u hu hlog => h2 u hlog hu, h4⟩
  intro hd
  rw [fetch_css_recursive_eq]
  have : decide (MAX_IMPORT_DEPTH < depth) = true := by simpa using hd
  simp [this]

/-- Claim C3 witness: concrete instantiations of the three parts of
`C3_css_recursion_bounded`. -/
theorem C3_css_recursion_bounded_witness :
    (MAX_IMPORT_DEPTH < 5 ∧ fetch_css_recursive c3net c3imps "A" [("X", "x")] 5 = ([("X", "x")], [])) ∧
    ("X" ∈ cacheKeys [("X", "x")] ∧ "X" ∉ (fetch_css_recursive c3net c3imps "A" [("X", "x")] 0).2) ∧
    ((fetch_css_recursive c3net c3imps "A" [("X", "x")] 0).2.filter
      (fun u => (c3net u).isSome)).Nodup :=
  ⟨⟨by decide, (C3_css_recursion_bounded c3net c3imps "A" [("X", "x")] 5).1 (by decide)⟩,
   ⟨by decide, (C3_css_recursion_bounded c3net c3imps "A" [("X", "x")] 0).2.1 "X" (by decide)⟩,
   (C3_css_recursion_bounded c3net c3imps "A" [("X", "x")] 0).2.2⟩

/-- Network oracle for the cap-overflow scenario: every fetch succeeds. -/
def c4net : String → Option String := fun u => some ("css-" ++ u)

/-- Import structure for the cap-overflow scenario: the first linked
stylesheet imports 49 distinct stylesheets; nothing else imports anything. -/
def c4imps : String → String → List String :=
  fun _ url => if url == "linkA" then (List.range 49).map (fun k => "i" ++ Nat.repr k) else []

/-- Claim C4 (code bug): a page with two stylesheet links, the first of
whose CSS imports 49 distinct stylesheets, ends the fetch with 51 cached
stylesheets — exceeding MAX_STYLESHEETS = 50.  `fetch_html` caps only the
number of link tags and the import loop checks the cache size only before
recursing, so the second link's own fetch is inserted unconditionally. -/
theorem C4_cache_cap_exceeded :
    (match fetch_html c4net c4imps true true none true ⟨100, "<html>"⟩ ["linkA", "linkB"] with
     | .ok r => r.2.length
     | .error _ => 0) = 51 ∧ MAX_STYLESHEETS = 50 := by
  refine ⟨by decide, by decide⟩

/-- Claim C5: fetch_html rejects any page whose size exceeds MAX_PAGE_SIZE
via both validation paths: an advertised content length above the cap is
rejected before the body is read (for every body), and a body above the cap
is rejected after download for every advertised content length (including
absent); in both cases the result is an error, never HTML. -/
theorem C5_oversized_page_rejected (net : String → Option String)
    (imps : String → String → List String) (links : List String) :
    (∀ len bodyOk body, MAX_PAGE_SIZE < len →
      exceptIsOk (fetch_html net imps true true (some len) bodyOk body links) = false) ∧
    (∀ contentLength body, MAX_PAGE_SIZE < body.len →
      exceptIsOk (fetch_html net imps true true contentLength true body links) = false) := by
  constructor
  · intro len bodyOk body h
    simp [fetch_html, h, exceptIsOk]
  · intro cl body h
    cases cl with
    | none => simp [fetch_html, h, exceptIsOk]
    | some v =>
      by_cases hv : MAX_PAGE_SIZE < v
      · simp [fetch_html, hv, exceptIsOk]
      · simp [fetch_html, hv, h, exceptIsOk]

/-- Claim C5 witness: a body of exactly MAX_PAGE_SIZE + 1 bytes is rejected
both when the advertised content length predicts it and when the content
length is absent. -/
theorem C5_oversized_page_rejected_witness :
    MAX_PAGE_SIZE < 10485761 ∧
    exceptIsOk (fetch_html wNet wImps true true (some 10485761) true ⟨10485761, ""⟩ []) = false ∧
    exceptIsOk (fetch_html wNet wImps true true none true ⟨10485761, ""⟩ []) = false :=
  ⟨by decide,
   (C5_oversized_page_rejected wNet wImps []).1 10485761 true ⟨10485761, ""⟩ (by decide),
   (C5_oversized_page_rejected wNet wImps []).2 none ⟨10485761, ""⟩ (by decide)⟩

/-- Claim C8: on success, fetch_html returns the downloaded body text
unmodified — no stylesheet inlining or rewriting — together with the cache. -/
theorem C8_html_unmodified (net : String → Option String)
    (imps : String → String → List String) (baseOk sendOk : Bool)
    (contentLength : Option Nat) (bodyOk : Bool) (body : HttpBody)
    (links : List String) (html : String) (cache : Cache)
    (hok : fetch_html net imps baseOk sendOk contentLength bodyOk body links = .ok (html, cache)) :
    html = body.text := by
  unfold fetch_html at hok
  repeat' split at hok
  all_goals simp_all

/-- Claim C8 witness: a successful fetch of a 3-byte body "abc" returns
exactly "abc". -/
theorem C8_html_unmodified_witness :
    fetch_html wNet wImps true true none true ⟨3, "abc"⟩ [] = .ok ("abc", ([] : Cache)) ∧
    "abc" = (HttpBody.mk 3 "abc").text :=
  ⟨rfl, C8_html_unmodified wNet wImps true true none true ⟨3, "abc"⟩ [] "abc" [] rfl⟩

/-! ## The advanced WebView state machine (src/webview/advanced.rs)

The widget state carried by `WebView` is `inflight_images` and
`nav_epochs` (lines 65-66).  The engine behind the `Engine` trait is
modelled by its observable state: which views exist (`has_view`), each
view's current URL (`get_url`), a pending anchor click per view
(`take_anchor_click`), the image references discovered during layout
(`take_pending_images`), the staged images injected but not yet flushed
(`load_image_from_bytes` stages, `flush_staged_images` drains — per the
trait's documentation in src/engines.rs lines 146-162), and each view's
loaded content / CSS cache (`goto` / `set_css_cache`).

Each `Action` handler is translated as a function from state to state plus
a list of emitted effects: spawned asynchronous tasks (`fetchHtml`,
`imageFetch` record the `Task::perform` calls) and engine calls whose
occurrence the claims are about (`flush`, `scrollFragment`, `goto`,
`loadImage`, `requestRender`).  The URL/title change-callback preamble of
`update` (lines 151-169) only emits user callbacks and mutates the cached
callback strings; it is elided.  The `litehtml`/`blitz` configuration is
modelled (an engine without native URL handling and with an action mapper
installed), which is the configuration all the claims concern. -/

/-- PageType (src/engines.rs lines 22-28). -/
inductive MPage where
  | url (s : String)
  | html (s : String)
deriving DecidableEq

/-- Association-list lookup keyed by view id (HashMap::get). -/
def alookup {α : Type} (l : List (Nat × α)) (k : Nat) : Option α :=
  (l.find? (fun p => p.1 == k)).map (fun p => p.2)

/-- Association-list overwrite (HashMap::insert, `entry().or_insert` plus
assignment). -/
def aset {α : Type} (l : List (Nat × α)) (k : Nat) (v : α) : List (Nat × α) :=
  (k, v) :: l.filter (fun p => p.1 != k)

/-- Association-list removal (Option::take on a per-view slot). -/
def aerase {α : Type} (l : List (Nat × α)) (k : Nat) : List (Nat × α) :=
  l.filter (fun p => p.1 != k)

theorem alookup_aset_self {α : Type} (l : List (Nat × α)) (k : Nat) (v : α) :
    alookup (aset l k v) k = some v := by
  simp [alookup, aset, List.find?]

/-- Observable state of the rendering engine (the `Engine` trait object). -/
structure EngineModel where
  views : List Nat
  urls : List (Nat × String)
  anchors : List (Nat × String)
  pending_images : List (Nat × String × String × Bool)
  staged : List (Nat × String)
  contents : List (Nat × MPage)
  css : List (Nat × Cache)
deriving DecidableEq

/-- Engine::has_view. -/
def hasView (en : EngineModel) (id : Nat) : Bool :=
  en.views.contains id

/-- Engine::get_url (empty string for an unknown view). -/
def getUrl (en : EngineModel) (id : Nat) : String :=
  (alookup en.urls id).getD ""

/-- The widget state of `WebView` (src/webview/advanced.rs lines 65-66)
together with the engine it owns. -/
structure WVState where
  inflight_images : Nat
  nav_epochs : List (Nat × Nat)
  engine : EngineModel
deriving DecidableEq

/-- The view's current navigation epoch
(`*self.nav_epochs.get(&view_id).unwrap_or(&0)`). -/
def epochOf (s : WVState) (id : Nat) : Nat :=
  (alookup s.nav_epochs id).getD 0

/-- Effects emitted by one `update` call: spawned tasks and the engine
calls the claims are about. -/
inductive Effect where
  | fetchHtml (id : Nat) (url : String)
  | imageFetch (id : Nat) (rawSrc : String) (resolved : ModelUrl) (redraw : Bool) (epoch : Nat)
  | flush (id : Nat) (staged : List String)
  | scrollFragment (id : Nat) (frag : String)
  | goto (id : Nat) (page : MPage)
  | loadImage (id : Nat) (src : String) (redraw : Bool)
  | requestRender (id : Nat)
deriving DecidableEq

/-- The subset of `Action` (src/webview/advanced.rs lines 21-47) the claims
concern.  `imageFetchComplete` carries the success flag in place of the
fetched bytes (only success/failure and the raw source key are observable
downstream). -/
inductive Msg where
  | goToUrl (id : Nat) (url : ModelUrl)
  | update (id : Nat)
  | imageFetchComplete (id : Nat) (src : String) (ok : Bool) (redraw : Bool) (epoch : Nat)
  | fetchComplete (id : Nat) (url : String) (result : Except String (String × Cache))
  | sendMouseEvent (id : Nat)

/-- The synthesized error document of `Action::FetchComplete`
(src/webview/advanced.rs lines 433-437). -/
def errorPage (url e : String) : String :=
  "<html><body><h1>Failed to load</h1><p>" ++ html_escape url ++ "</p><p>"
    ++ html_escape e ++ "</p></body></html>"

/-- Handler of `Action::GoToUrl` (src/webview/advanced.rs lines 226-253):
reset the in-flight counter, bump the view's epoch (wrapping u64), point the
engine at the URL, spawn the HTML fetch (engine without native URL
handling, mapper installed), request a render. -/
def goToUrlStep (o : UrlOracle) (s : WVState) (id : Nat) (u : ModelUrl) :
    WVState × List Effect :=
  let urlStr := o.toStr u
  let epochs := aset s.nav_epochs id (((alookup s.nav_epochs id).getD 0 + 1) % U64_MOD)
  let en := { s.engine with contents := aset s.engine.contents id (.url urlStr) }
  ({ inflight_images := 0, nav_epochs := epochs, engine := en },
   [.goto id (.url urlStr), .fetchHtml id urlStr, .requestRender id])

/-- The image-spawn loop of `Action::Update` (src/webview/advanced.rs lines
310-346): for each pending image reference, resolve with the 3-tier
fallback, skip non-http(s) schemes, increment the in-flight counter and
spawn a fetch carrying the view's current epoch (captured at spawn time). -/
def spawnPending (o : UrlOracle) (epochs : List (Nat × Nat)) (en : EngineModel) :
    List (Nat × String × String × Bool) → Nat → Nat × List Effect
  | [], inflight => (inflight, [])
  | (vid, src, baseurl, rd) :: rest, inflight =>
    match resolve_url o src baseurl (getUrl en vid) with
    | none => spawnPending o epochs en rest inflight
    | some r =>
      if r.scheme != "http" && r.scheme != "https" then
        spawnPending o epochs en rest inflight
      else
        let res := spawnPending o epochs en rest (inflight + 1)
        (res.1, .imageFetch vid src r rd ((alookup epochs vid).getD 0) :: res.2)

/-- Handler of `Action::Update` (src/webview/advanced.rs lines 300-350):
engine tick, render request, flush of the view's staged images when no
image fetch is in flight, then harvest pending images and spawn their
fetches. -/
def updateStep (o : UrlOracle) (s : WVState) (id : Nat) : WVState × List Effect :=
  let flushPart :=
    if s.inflight_images == 0 then
      let payload := (s.engine.staged.filter (fun p => p.1 == id)).map (fun p => p.2)
      ({ s.engine with staged := s.engine.staged.filter (fun p => p.1 != id) },
       [Effect.flush id payload])
    else (s.engine, [])
  let en1 := flushPart.1
  let pend := en1.pending_images
  let en2 := { en1 with pending_images := [] }
  let sp := spawnPending o s.nav_epochs en2 pend s.inflight_images
  ({ inflight_images := sp.1, nav_epochs := s.nav_epochs, engine := en2 },
   Effect.requestRender id :: (flushPart.2 ++ sp.2))

/-- Handler of `Action::ImageFetchComplete` (src/webview/advanced.rs lines
443-465): decrement the in-flight counter (saturating, before any other
check), discard when the carried epoch differs from the view's current
epoch, otherwise inject the bytes into the view's container when the view
still exists (a failed fetch is only logged). -/
def imageFetchCompleteStep (s : WVState) (id : Nat) (src : String)
    (ok : Bool) (redraw : Bool) (epoch : Nat) : WVState × List Effect :=
  let inflight := s.inflight_images - 1
  let current := (alookup s.nav_epochs id).getD 0
  if epoch != current then
    ({ s with inflight_images := inflight }, [])
  else if hasView s.engine id then
    if ok then
      ({ s with inflight_images := inflight,
                engine := { s.engine with staged := s.engine.staged ++ [(id, src)] } },
       [.loadImage id src redraw])
    else
      ({ s with inflight_images := inflight }, [])
  else
    ({ s with inflight_images := inflight }, [])

/-- Handler of `Action::FetchComplete` (src/webview/advanced.rs lines
423-442): no-op for a vanished view; on success install the CSS cache and
load the HTML; on failure load the synthesized escaped error document;
then request a render. -/
def fetchCompleteStep (s : WVState) (id : Nat) (url : String)
    (result : Except String (String × Cache)) : WVState × List Effect :=
  if !hasView s.engine id then (s, [])
  else
    match result with
    | .ok (html, cache) =>
      ({ s with engine := { s.engine with
           css := aset s.engine.css id cache,
           contents := aset s.engine.contents id (.html html) } },
       [.goto id (.html html), .requestRender id])
    | .error e =>
      ({ s with engine := { s.engine with
           contents := aset s.engine.contents id (.html (errorPage url e)) } },
       [.goto id (.html (errorPage url e)), .requestRender id])

/-- The state after `take_anchor_click` consumed the pending anchor. -/
def anchorDrained (s : WVState) (id : Nat) : WVState :=
  { s with engine := { s.engine with anchors := aerase s.engine.anchors id } }

/-- The anchor-href resolution of src/webview/advanced.rs lines 267-272:
`Url::parse(&href)` falling back to joining against the view's parsed
current URL. -/
def anchorResolved (o : UrlOracle) (s : WVState) (id : Nat) (href : String) : Option ModelUrl :=
  match o.parse href with
  | some u => some u
  | none => (o.parse (getUrl s.engine id)).bind (fun b => o.join b href)

/-- The same-page test of src/webview/advanced.rs lines 276-282: the
resolved target agrees with the parsed current URL on
scheme+host+port+path+query (false when the current URL does not parse). -/
def samePage (o : UrlOracle) (s : WVState) (id : Nat) (r : ModelUrl) : Bool :=
  match o.parse (getUrl s.engine id) with
  | some cur => is_same_page r cur
  | none => false

/-- Handler of `Action::SendMouseEvent` (src/webview/advanced.rs lines
262-299): hand the event to the engine, then if the click surfaced an
anchor href, resolve it (absolute, else joined to the current URL); an
http(s) target on the same page becomes a fragment scroll, any other
http(s) target becomes a `GoToUrl` navigation (the source literally calls
`self.update(Action::GoToUrl(..))`), and anything else is ignored. -/
def sendMouseEventStep (o : UrlOracle) (s : WVState) (id : Nat) : WVState × List Effect :=
  match alookup s.engine.anchors id with
  | none => (s, [])
  | some href =>
    match anchorResolved o s id href with
    | none => (anchorDrained s id, [])
    | some r =>
      if r.scheme == "http" || r.scheme == "https" then
        if samePage o s id r then
          match r.fragment with
          | some f => (anchorDrained s id, [.scrollFragment id f])
          | none => (anchorDrained s id, [])
        else
          goToUrlStep o (anchorDrained s id) id r
      else (anchorDrained s id, [])

/-- One call of `WebView::update` (src/webview/advanced.rs lines 148-469)
on the actions the claims concern. -/
def step (o : UrlOracle) (s : WVState) : Msg → WVState × List Effect
  | .goToUrl id u => goToUrlStep o s id u
  | .update id => updateStep o s id
  | .imageFetchComplete id src ok rd ep => imageFetchCompleteStep s id src ok rd ep
  | .fetchComplete id url res => fetchCompleteStep s id url res
  | .sendMouseEvent id => sendMouseEventStep o s id

/-- Processing of a sequence of actions, accumulating emitted effects. -/
def runW (o : UrlOracle) (s : WVState) : List Msg → WVState × List Effect
  | [] => (s, [])
  | m :: ms =>
    let r1 := step o s m
    let r2 := runW o r1.1 ms
    (r2.1, r1.2 ++ r2.2)

/-! ## Navigation epochs and stale-result discarding -/

/-- Actions that leave `nav_epochs` untouched (everything except an
explicit navigation and a mouse event, which may trigger one). -/
def epochSafeB : Msg → Bool
  | .update _ => true
  | .imageFetchComplete _ _ _ _ _ => true
  | .fetchComplete _ _ _ => true
  | _ => false

theorem step_preserves_epochs (o : UrlOracle) (s : WVState) (m : Msg)
    (h : epochSafeB m = true) : (step o s m).1.nav_epochs = s.nav_epochs := by
  cases m with
  | goToUrl id u => simp [epochSafeB] at h
  | sendMouseEvent id => simp [epochSafeB] at h
  | update id => rfl
  | imageFetchComplete id src ok rd ep =>
    simp only [step, imageFetchCompleteStep]
    repeat' split
    all_goals rfl
  | fetchComplete id url res =>
    simp only [step, fetchCompleteStep]
    repeat' split
    all_goals rfl

theorem runW_preserves_epochs (o : UrlOracle) : ∀ (tr : List Msg) (s : WVState),
    tr.all epochSafeB = true → (runW o s tr).1.nav_epochs = s.nav_epochs := by
  intro tr
  induction tr with
  | nil => intro s _; rfl
  | cons m ms ih =>
    intro s h
    rw [List.all_cons, Bool.and_eq_true] at h
    show (runW o (step o s m).1 ms).1.nav_epochs = _
    rw [ih _ h.2, step_preserves_epochs o s m h.1]

/-- The discard path of `Action::ImageFetchComplete` (src/webview/advanced.rs
lines 443-448): a completion carrying an epoch different from the view's
current epoch only decrements the in-flight counter; the engine is not
touched and no effect is emitted. -/
theorem imageFetchComplete_discard (o : UrlOracle) (s : WVState) (id : Nat)
    (src : String) (ok rd : Bool) (ep : Nat) (h : ep ≠ epochOf s id) :
    step o s (.imageFetchComplete id src ok rd ep)
      = ({ s with inflight_images := s.inflight_images - 1 }, []) := by
  have hb : (ep != (alookup s.nav_epochs id).getD 0) = true := bne_iff_ne.mpr h
  simp only [step, imageFetchCompleteStep, hb, if_pos]

theorem epochOf_goToUrl (o : UrlOracle) (s : WVState) (id : Nat) (u : ModelUrl) :
    epochOf (step o s (.goToUrl id u)).1 id = (epochOf s id + 1) % U64_MOD := by
  simp [step, goToUrlStep, epochOf, alookup_aset_self]

theorem U64_MOD_pos : 0 < U64_MOD := by
  norm_num [U64_MOD]

theorem succ_mod_ne (e : Nat) (he : e < U64_MOD) : (e + 1) % U64_MOD ≠ e := by
  intro h
  rcases Nat.lt_or_ge (e + 1) U64_MOD with hlt | hge
  · rw [Nat.mod_eq_of_lt hlt] at h
    omega
  · have he1 : e + 1 = U64_MOD := by omega
    rw [he1, Nat.mod_self] at h
    have h2 : U64_MOD = 1 := by omega
    norm_num [U64_MOD] at h2

/-- Claim C1: an asynchronous image-fetch result tagged with an epoch
different from the view's current epoch is discarded and never applied to
the view's state (first conjunct); in particular, after two consecutive
navigations on a view followed by any sequence of ticks and fetch
completions, a pending image result carrying the first navigation's epoch
is discarded — regardless of arrival order. -/
theorem C1_stale_epoch_discarded (o : UrlOracle) (s : WVState) (v : Nat)
    (u1 u2 : ModelUrl) (tr : List Msg) (src : String) (ok rd : Bool)
    (htr : tr.all epochSafeB = true) :
    (∀ (t : WVState) (id : Nat) (src' : String) (ok' rd' : Bool) (ep : Nat),
       ep ≠ epochOf t id →
       step o t (.imageFetchComplete id src' ok' rd' ep)
         = ({ t with inflight_images := t.inflight_images - 1 }, [])) ∧
    step o (runW o (step o (step o s (.goToUrl v u1)).1 (.goToUrl v u2)).1 tr).1
        (.imageFetchComplete v src ok rd (epochOf (step o s (.goToUrl v u1)).1 v))
      = ({ (runW o (step o (step o s (.goToUrl v u1)).1 (.goToUrl v u2)).1 tr).1 with
             inflight_images :=
               (runW o (step o (step o s (.goToUrl v u1)).1 (.goToUrl v u2)).1 tr).1.inflight_images - 1 },
         []) := by
  refine ⟨fun t id src' ok' rd' ep hep => imageFetchComplete_discard o t id src' ok' rd' ep hep, ?_⟩
  apply imageFetchComplete_discard
  have hrun : epochOf (runW o (step o (step o s (.goToUrl v u1)).1 (.goToUrl v u2)).1 tr).1 v
      = epochOf (step o (step o s (.goToUrl v u1)).1 (.goToUrl v u2)).1 v := by
    unfold epochOf
    rw [runW_preserves_epochs o tr _ htr]
  rw [hrun, epochOf_goToUrl o (step o s (.goToUrl v u1)).1 v u2]
  have hlt : epochOf (step o s (.goToUrl v u1)).1 v < U64_MOD := by
    rw [epochOf_goToUrl]
    exact Nat.mod_lt _ U64_MOD_pos
  exact (succ_mod_ne _ hlt).symm

/-- Trivial URL oracle for witness instantiations. -/
def wOracle : UrlOracle :=
  { parse := fun _ => none, join := fun _ _ => none, toStr := fun _ => "" }

/-- A simple http URL value for witness instantiations. -/
def wUrl : ModelUrl := ⟨"http", some "a.test", none, "/", none, none⟩

/-- Engine state with the single view 0 for witness instantiations. -/
def wEngine : EngineModel := ⟨[0], [], [], [], [], [], []⟩

/-- Widget state over `wEngine` for witness instantiations. -/
def wState : WVState := ⟨0, [], wEngine⟩

/-- Claim C1 witness: concrete two-navigation scenario with an intervening
tick; the completion carrying the first navigation's epoch is discarded. -/
theorem C1_stale_epoch_discarded_witness :
    [Msg.update 0].all epochSafeB = true ∧
    step wOracle (runW wOracle (step wOracle (step wOracle wState (.goToUrl 0 wUrl)).1 (.goToUrl 0 wUrl)).1 [Msg.update 0]).1
        (.imageFetchComplete 0 "x" true false (epochOf (step wOracle wState (.goToUrl 0 wUrl)).1 0))
      = ({ (runW wOracle (step wOracle (step wOracle wState (.goToUrl 0 wUrl)).1 (.goToUrl 0 wUrl)).1 [Msg.update 0]).1 with
             inflight_images :=
               (runW wOracle (step wOracle (step wOracle wState (.goToUrl 0 wUrl)).1 (.goToUrl 0 wUrl)).1 [Msg.update 0]).1.inflight_images - 1 },
         []) :=
  ⟨by decide,
   (C1_stale_epoch_discarded wOracle wState 0 wUrl wUrl [Msg.update 0] "x" true false (by decide)).2⟩

/-- Claim C10: every `ImageFetchComplete` decrements the in-flight counter
with saturating subtraction before the epoch and view-existence checks (in
every branch the new counter is the truncated predecessor), a counter at
zero stays at zero instead of wrapping, and `GoToUrl` resets it to zero. -/
theorem C10_inflight_no_underflow (o : UrlOracle) (s : WVState) (id : Nat)
    (src : String) (ok redraw : Bool) (epoch : Nat) (u : ModelUrl) :
    (step o s (.imageFetchComplete id src ok redraw epoch)).1.inflight_images
        = s.inflight_images - 1 ∧
    (step o { s with inflight_images := 0 }
        (.imageFetchComplete id src ok redraw epoch)).1.inflight_images = 0 ∧
    (step o s (.goToUrl id u)).1.inflight_images = 0 := by
  refine ⟨?_, ?_, rfl⟩
  · simp only [step, imageFetchCompleteStep]
    repeat' split
    all_goals rfl
  · simp only [step, imageFetchCompleteStep]
    repeat' split
    all_goals rfl

/-- Claim C7: a failed page fetch is converted into the synthesized error
document — the requested URL and the error message both HTML-escaped — and
loaded into the requesting view, followed by a render request, so the view
reaches a renderable state. -/
theorem C7_fetch_failure_error_page (o : UrlOracle) (s : WVState) (id : Nat)
    (url e : String) (hview : hasView s.engine id = true) :
    step o s (.fetchComplete id url (.error e)) =
      ({ s with engine := { s.engine with
           contents := aset s.engine.contents id (.html (errorPage url e)) } },
       [.goto id (.html (errorPage url e)), .requestRender id]) ∧
    errorPage url e =
      "<html><body><h1>Failed to load</h1><p>" ++ html_escape url ++ "</p><p>"
        ++ html_escape e ++ "</p></body></html>" := by
  refine ⟨?_, rfl⟩
  simp [step, fetchCompleteStep, hview]

/-- Claim C7 witness: a concrete failed fetch for an existing view loads the
escaped error document and requests a render. -/
theorem C7_fetch_failure_error_page_witness :
    hasView wEngine 0 = true ∧
    (step wOracle wState (.fetchComplete 0 "http://x.test/<p>" (.error "boom & bust"))).2
      = [.goto 0 (.html (errorPage "http://x.test/<p>" "boom & bust")), .requestRender 0] := by
  refine ⟨by decide, ?_⟩
  rw [(C7_fetch_failure_error_page wOracle wState 0 "http://x.test/<p>" "boom & bust" (by decide)).1]

/-- Widget state with no views at all. -/
def c9state : WVState := ⟨0, [], ⟨[], [], [], [], [], [], []⟩⟩

/-- Claim C9 (code bug): referencing a closed or nonexistent view is NOT
uniformly recoverable in the implementation.  The basic webview's
index lookups hit their `.expect(..)` panic (modelled by `none`) on an
unknown index or unset current view — aborting the process — while the
advanced webview's `FetchComplete` handler treats the same condition as a
silent no-op. -/
theorem C9_unknown_view_aborts :
    index_as_view_id [] 0 = none ∧
    get_current_view_id [] none = none ∧
    get_current_view_id [] (some 0) = none ∧
    (∀ o : UrlOracle, step o c9state (.fetchComplete 0 "u" (.error "e")) = (c9state, [])) :=
  ⟨rfl, rfl, rfl, fun _ => rfl⟩

/-! ## Coalesced flushing of staged images (claim C2 machinery)

`SC s v` is view `v`'s staged-image batch; `flushCnt` counts the
flush_staged_images calls that actually carry a nonempty batch (a tick with
nothing staged flushes nothing); `allowedB v e` characterises the messages
of the scenario: ticks for view `v` and successful completions for view `v`
carrying the current epoch `e`. -/

/-- View v's staged images (injected, not yet flushed). -/
def SC (s : WVState) (v : Nat) : List String :=
  (s.engine.staged.filter (fun p => p.1 == v)).map (fun p => p.2)

/-- Messages allowed in the N-completions scenario: ticks for view v and
successful completions for view v carrying epoch e. -/
def allowedB (v e : Nat) : Msg → Bool
  | .update id => id == v
  | .imageFetchComplete id _ ok _ ep => id == v && ok && (ep == e)
  | _ => false

/-- The raw sources of the completion messages of a trace, in order. -/
def compSrcs : List Msg → List String :=
  List.filterMap (fun m =>
    match m with
    | .imageFetchComplete _ src _ _ _ => some src
    | _ => none)

/-- A flush call that actually carries staged images. -/
def isNonemptyFlush : Effect → Bool
  | .flush _ l => !l.isEmpty
  | _ => false

/-- Number of nonempty flushes among the emitted effects. -/
def flushCnt (effs : List Effect) : Nat :=
  effs.countP isNonemptyFlush

/-- Scenario precondition: no undiscovered pending images, view v exists
and its current epoch is e. -/
def PreC2 (s : WVState) (v e : Nat) : Prop :=
  s.engine.pending_images = [] ∧ epochOf s v = e ∧ hasView s.engine v = true

theorem engine_set_pending_nil (en : EngineModel) (hp : en.pending_images = []) :
    { en with pending_images := [] } = en := by
  cases en
  simp_all

theorem spawnPending_mem_imageFetch (o : UrlOracle) (eps : List (Nat × Nat))
    (en : EngineModel) : ∀ (pend : List (Nat × String × String × Bool)) (n : Nat)
    (eff : Effect), eff ∈ (spawnPending o eps en pend n).2 →
    ∃ a b c d f, eff = Effect.imageFetch a b c d f := by
  intro pend
  induction pend with
  | nil =>
    intro n eff h
    simp [spawnPending] at h
  | cons p rest ih =>
    intro n eff h
    obtain ⟨vid, src, baseurl, rd⟩ := p
    simp only [spawnPending] at h
    split at h
    · exact ih n eff h
    · split at h
      · exact ih n eff h
      · dsimp only at h
        rcases List.mem_cons.mp h with rfl | hm
        · exact ⟨_, _, _, _, _, rfl⟩
        · exact ih (n + 1) eff hm

/-- Shape of an `Update` tick while image fetches are in flight and no new
images are pending: no flush, no spawn, state unchanged. -/
theorem updateStep_pos (o : UrlOracle) (s : WVState) (id : Nat)
    (h : s.inflight_images ≠ 0) (hp : s.engine.pending_images = []) :
    step o s (.update id) = (s, [.requestRender id]) := by
  have hb : (s.inflight_images == 0) = false := by simpa using h
  simp only [step, updateStep, hb, Bool.false_eq_true, if_false, hp, spawnPending]
  rw [engine_set_pending_nil s.engine hp]
  rfl

/-- Shape of an `Update` tick with no fetch in flight and no new pending
images: the view's staged batch is drained and flushed. -/
theorem updateStep_zero (o : UrlOracle) (s : WVState) (id : Nat)
    (h : s.inflight_images = 0) (hp : s.engine.pending_images = []) :
    step o s (.update id)
      = ({ s with engine := { s.engine with
             staged := s.engine.staged.filter (fun p => p.1 != id) } },
         [.requestRender id, .flush id (SC s id)]) := by
  have hb : (s.inflight_images == 0) = true := by simpa using h
  simp only [step, updateStep, hb, if_true]
  rw [hp]
  simp only [spawnPending, SC]
  rfl

/-- Shape of a matching successful completion for an existing view: the
counter is decremented and the image is staged. -/
theorem compStep (o : UrlOracle) (s : WVState) (v : Nat) (src : String)
    (rd : Bool) (e : Nat) (hep : epochOf s v = e) (hv : hasView s.engine v = true) :
    step o s (.imageFetchComplete v src true rd e)
      = ({ s with inflight_images := s.inflight_images - 1,
                  engine := { s.engine with staged := s.engine.staged ++ [(v, src)] } },
         [.loadImage v src rd]) := by
  have hcur : (alookup s.nav_epochs v).getD 0 = e := hep
  have hbe : (e != (alookup s.nav_epochs v).getD 0) = false := by
    rw [hcur]
    exact bne_self_eq_false e
  simp only [step, imageFetchCompleteStep, hbe, Bool.false_eq_true, if_false, hv, if_true]

theorem SC_staged_append (s : WVState) (v : Nat) (src : String) :
    SC { s with engine := { s.engine with staged := s.engine.staged ++ [(v, src)] } } v
      = SC s v ++ [src] := by
  simp [SC, List.filter_append]

theorem SC_flushed (s : WVState) (v : Nat) :
    SC { s with engine := { s.engine with
           staged := s.engine.staged.filter (fun p => p.1 != v) } } v = [] := by
  unfold SC
  simp only [List.filter_filter]
  have : ∀ p : Nat × String, (p.1 == v && p.1 != v) = false := by
    intro p
    cases hpv : p.1 == v <;> simp [bne, hpv]
  simp [this]

theorem flushCnt_append (a b : List Effect) :
    flushCnt (a ++ b) = flushCnt a + flushCnt b :=
  List.countP_append _ _ _

theorem flushCnt_requestRender (id : Nat) : flushCnt [Effect.requestRender id] = 0 := rfl

theorem flushCnt_loadImage (id : Nat) (src : String) (rd : Bool) :
    flushCnt [Effect.loadImage id src rd] = 0 := rfl

theorem flushCnt_update_zero (id : Nat) (payload : List String) :
    flushCnt [Effect.requestRender id, Effect.flush id payload]
      = if payload.isEmpty then 0 else 1 := by
  cases payload <;> rfl

theorem compSrcs_update (id : Nat) (ms : List Msg) :
    compSrcs (Msg.update id :: ms) = compSrcs ms := rfl

theorem compSrcs_comp (id : Nat) (src : String) (ok rd : Bool) (ep : Nat) (ms : List Msg) :
    compSrcs (Msg.imageFetchComplete id src ok rd ep :: ms) = src :: compSrcs ms := rfl

theorem runW_cons (o : UrlOracle) (s : WVState) (m : Msg) (ms : List Msg) :
    runW o s (m :: ms)
      = ((runW o (step o s m).1 ms).1, (step o s m).2 ++ (runW o (step o s m).1 ms).2) := rfl

theorem runW_append (o : UrlOracle) : ∀ (t1 t2 : List Msg) (s : WVState),
    runW o s (t1 ++ t2)
      = ((runW o (runW o s t1).1 t2).1, (runW o s t1).2 ++ (runW o (runW o s t1).1 t2).2) := by
  intro t1
  induction t1 with
  | nil => intro t2 s; simp [runW]
  | cons m ms ih =>
    intro t2 s
    simp only [List.cons_append, runW_cons, ih, List.append_assoc]

/-- While strictly more completions remain than have arrived (the counter
cannot reach zero), no tick flushes anything. -/
theorem C2runFlushFree (o : UrlOracle) (v e : Nat) : ∀ (tr : List Msg) (s : WVState),
    tr.all (allowedB v e) = true → PreC2 s v e →
    (compSrcs tr).length < s.inflight_images →
    flushCnt (runW o s tr).2 = 0 ∧
    (runW o s tr).1.inflight_images = s.inflight_images - (compSrcs tr).length ∧
    PreC2 (runW o s tr).1 v e := by
  intro tr
  induction tr with
  | nil =>
    intro s hall hpre hlt
    exact ⟨rfl, by simp [runW, compSrcs], hpre⟩
  | cons m ms ih =>
    intro s hall hpre hlt
    rw [List.all_cons, Bool.and_eq_true] at hall
    obtain ⟨hm, hms⟩ := hall
    cases m with
    | goToUrl id u => simp [allowedB] at hm
    | fetchComplete id url res => simp [allowedB] at hm
    | sendMouseEvent id => simp [allowedB] at hm
    | update id =>
      have hid : id = v := by simpa [allowedB] using hm
      subst hid
      have hne : s.inflight_images ≠ 0 := by
        rw [compSrcs_update] at hlt
        omega
      have hstep := updateStep_pos o s id hne hpre.1
      rw [runW_cons, hstep, compSrcs_update]
      obtain ⟨h1, h2, h3⟩ := ih s hms hpre (by rwa [compSrcs_update] at hlt)
      exact ⟨by rw [flushCnt_append, flushCnt_requestRender, h1], h2, h3⟩
    | imageFetchComplete id src ok rd ep =>
      have hm' : (id = v ∧ ok = true) ∧ ep = e := by
        simpa [allowedB, Bool.and_eq_true] using hm
      obtain ⟨⟨hid, hok⟩, hep⟩ := hm'
      subst hid; subst hok; subst hep
      have hstep := compStep o s id src rd ep hpre.2.1 hpre.2.2
      rw [runW_cons, hstep, compSrcs_comp]
      have hpre' :
          PreC2
            { s with inflight_images := s.inflight_images - 1,
                     engine := { s.engine with staged := s.engine.staged ++ [(id, src)] } }
            id ep :=
        ⟨hpre.1, hpre.2.1, hpre.2.2⟩
      rw [compSrcs_comp] at hlt
      obtain ⟨h1, h2, h3⟩ := ih _ hms hpre' (by simp at hlt ⊢; omega)
      refine ⟨by rw [flushCnt_append, flushCnt_loadImage, h1], ?_, h3⟩
      rw [h2]
      simp only [List.length_cons]
      omega

/-- Processing exactly the remaining completions, interleaved with ticks:
at most one nonempty flush occurs; if none occurred the batch is fully
staged, if one occurred the stage is empty; and from an empty stage with no
completions nothing is ever flushed. -/
theorem C2runExact (o : UrlOracle) (v e : Nat) : ∀ (tr : List Msg) (s : WVState),
    tr.all (allowedB v e) = true → PreC2 s v e →
    (compSrcs tr).length = s.inflight_images →
    PreC2 (runW o s tr).1 v e ∧
    (runW o s tr).1.inflight_images = 0 ∧
    flushCnt (runW o s tr).2 ≤ 1 ∧
    (flushCnt (runW o s tr).2 = 0 → SC (runW o s tr).1 v = SC s v ++ compSrcs tr) ∧
    (flushCnt (runW o s tr).2 = 1 → SC (runW o s tr).1 v = []) ∧
    (SC s v = [] → compSrcs tr = [] → flushCnt (runW o s tr).2 = 0) := by
  intro tr
  induction tr with
  | nil =>
    intro s hall hpre hlen
    simp only [compSrcs, List.filterMap_nil, List.length_nil] at hlen
    refine ⟨hpre, hlen.symm, by simp [runW, flushCnt], ?_, ?_, ?_⟩
    · intro _
      simp [runW, compSrcs]
    · intro h
      simp [runW, flushCnt] at h
    · intro _ _
      rfl
  | cons m ms ih =>
    intro s hall hpre hlen
    rw [List.all_cons, Bool.and_eq_true] at hall
    obtain ⟨hm, hms⟩ := hall
    cases m with
    | goToUrl id u => simp [allowedB] at hm
    | fetchComplete id url res => simp [allowedB] at hm
    | sendMouseEvent id => simp [allowedB] at hm
    | update id =>
      have hid : id = v := by simpa [allowedB] using hm
      subst hid
      rw [compSrcs_update] at hlen
      by_cases hz : s.inflight_images = 0
      · -- all completions already arrived: this tick flushes the batch
        have hms0 : compSrcs ms = [] := by
          rw [hz] at hlen
          exact List.length_eq_zero.mp hlen
        have hstep := updateStep_zero o s id hz hpre.1
        rw [runW_cons, hstep, compSrcs_update]
        dsimp only
        have hpreF :
            PreC2
              { s with engine :=
                        { s.engine with staged := s.engine.staged.filter (fun p => p.1 != id) } }
              id e :=
          ⟨hpre.1, hpre.2.1, hpre.2.2⟩
        have hscF :
            SC
              { s with engine :=
                        { s.engine with staged := s.engine.staged.filter (fun p => p.1 != id) } }
              id = [] :=
          SC_flushed s id
        have hlenF : (compSrcs ms).length = s.inflight_images := by
          rw [hms0]
          exact hz.symm
        obtain ⟨g1, g2, g3, g4, g5, g6⟩ := ih _ hms hpreF hlenF
        have hrest := g6 hscF hms0
        have hfin := g4 hrest
        rw [hscF, hms0, List.append_nil] at hfin
        rw [flushCnt_append, flushCnt_update_zero, hrest]
        refine ⟨g1, g2, ?_, ?_, ?_, ?_⟩
        · cases hsc : (SC s id).isEmpty <;> simp [hsc]
        · intro h0
          cases hsc : (SC s id).isEmpty with
          | false => simp [hsc] at h0
          | true =>
            have hnil : SC s id = [] := List.isEmpty_iff.mp hsc
            rw [hfin, hnil, hms0]
            rfl
        · intro _
          exact hfin
        · intro hscs _
          have hemp : (SC s id).isEmpty = true := by rw [hscs]; rfl
          simp [hemp]
      · -- fetches still in flight: the tick does nothing
        have hstep := updateStep_pos o s id hz hpre.1
        rw [runW_cons, hstep, compSrcs_update]
        dsimp only
        rw [flushCnt_append, flushCnt_requestRender, Nat.zero_add]
        exact ih s hms hpre hlen
    | imageFetchComplete id src ok rd ep =>
      have hm' : (id = v ∧ ok = true) ∧ ep = e := by
        simpa [allowedB, Bool.and_eq_true] using hm
      obtain ⟨⟨hid, hok⟩, hep⟩ := hm'
      subst hid; subst hok; subst hep
      have hstep := compStep o s id src rd ep hpre.2.1 hpre.2.2
      rw [runW_cons, hstep, compSrcs_comp]
      rw [compSrcs_comp] at hlen
      dsimp only
      have hpreC :
          PreC2
            { s with inflight_images := s.inflight_images - 1,
                     engine := { s.engine with staged := s.engine.staged ++ [(id, src)] } }
            id ep :=
        ⟨hpre.1, hpre.2.1, hpre.2.2⟩
      have hlenC : (compSrcs ms).length = s.inflight_images - 1 := by
        simp only [List.length_cons] at hlen
        omega
      obtain ⟨g1, g2, g3, g4, g5, g6⟩ := ih _ hms hpreC hlenC
      rw [flushCnt_append, flushCnt_loadImage, Nat.zero_add]
      refine ⟨g1, g2, g3, ?_, g5, ?_⟩
      · intro h0
        rw [g4 h0]
        simp [SC, List.filter_append]
      · intro _ habs
        exact absurd habs (by simp)

/-- Claim C2: for N ≥ 1 concurrent image fetches against one view (all in
flight, nothing staged, no other fetches outstanding), any interleaving of
the N completions with ticks followed by a tick produces exactly one
nonempty flush of the staged batch (first conjunct); no prefix that still
misses a completion flushes anything (second conjunct — the flush happens
after the last completion, independent of arrival order); and a tick emits
a flush call only when the in-flight counter is zero (third conjunct). -/
theorem C2_single_flush_after_last_completion (o : UrlOracle) (v e : Nat)
    (s : WVState) (tr : List Msg)
    (hall : tr.all (allowedB v e) = true) (hpre : PreC2 s v e)
    (hsc : SC s v = []) (hlen : (compSrcs tr).length = s.inflight_images)
    (hpos : 0 < s.inflight_images) :
    flushCnt (runW o s (tr ++ [.update v])).2 = 1 ∧
    (∀ p q, tr = p ++ q → (compSrcs p).length < s.inflight_images →
       flushCnt (runW o s p).2 = 0) ∧
    (∀ (t : WVState) (idv : Nat) (payload : List String),
       Effect.flush idv payload ∈ (step o t (.update idv)).2 → t.inflight_images = 0) := by
  refine ⟨?_, ?_, ?_⟩
  · -- exactly one nonempty flush over the whole run
    obtain ⟨g1, g2, g3, g4, g5, g6⟩ := C2runExact o v e tr s hall hpre hlen
    rw [runW_append]
    rw [flushCnt_append]
    have hstep := updateStep_zero o (runW o s tr).1 v g2 g1.1
    rw [runW_cons, hstep]
    dsimp only
    rw [show runW o _ ([] : List Msg) = (_, ([] : List Effect)) from rfl]
    rw [List.append_nil, flushCnt_update_zero]
    rcases Nat.le_one_iff_eq_zero_or_eq_one.mp g3 with h0 | h1
    · have hscr : SC (runW o s tr).1 v = compSrcs tr := by
        rw [g4 h0, hsc, List.nil_append]
      have hne : (SC (runW o s tr).1 v).isEmpty = false := by
        rw [hscr]
        cases hcs : compSrcs tr with
        | nil => rw [hcs] at hlen; simp at hlen; omega
        | cons a l => rfl
      rw [h0, hne]
      rfl
    · have hscr : SC (runW o s tr).1 v = [] := g5 h1
      rw [h1, hscr]
      rfl
  · -- prefixes missing a completion flush nothing
    intro p q hpq hplt
    have hall' := hall
    rw [hpq, List.all_append, Bool.and_eq_true] at hall'
    exact (C2runFlushFree o v e p s hall'.1 hpre hplt).1
  · -- a flush call is only ever emitted with the counter at zero
    intro t idv payload hmem
    by_cases hz : t.inflight_images = 0
    · exact hz
    · exfalso
      have hb : (t.inflight_images == 0) = false := by simpa using hz
      simp only [step, updateStep, hb, Bool.false_eq_true, if_false] at hmem
      rcases List.mem_cons.mp hmem with heq | hm
      · exact absurd heq (by simp)
      · rw [List.nil_append] at hm
        obtain ⟨a, b, c, d, f, heq⟩ := spawnPending_mem_imageFetch o t.nav_epochs _ _ _ _ hm
        exact absurd heq (by simp)

/-- State for the C2 witness: view 0 exists at epoch 5 with two image
fetches in flight and nothing staged. -/
def c2state : WVState := ⟨2, [(0, 5)], ⟨[0], [], [], [], [], [], []⟩⟩

/-- Trace for the C2 witness: one completion, a tick, the last completion. -/
def c2tr : List Msg :=
  [.imageFetchComplete 0 "x" true false 5, .update 0, .imageFetchComplete 0 "y" true true 5]

/-- Claim C2 witness: in the concrete two-fetch scenario, the run with a
trailing tick flushes exactly once. -/
theorem C2_single_flush_after_last_completion_witness :
    c2tr.all (allowedB 0 5) = true ∧ PreC2 c2state 0 5 ∧ SC c2state 0 = [] ∧
    (compSrcs c2tr).length = c2state.inflight_images ∧ 0 < c2state.inflight_images ∧
    flushCnt (runW wOracle c2state (c2tr ++ [.update 0])).2 = 1 :=
  ⟨by decide, ⟨rfl, rfl, rfl⟩, rfl, rfl, by decide,
   (C2_single_flush_after_last_completion wOracle 0 5 c2state c2tr (by decide)
     ⟨rfl, rfl, rfl⟩ rfl rfl (by decide)).1⟩

/-- Claim C6: for a click that surfaced an anchor href resolving to an
http(s) URL: if the resolved target matches the view's current URL on
scheme+host+port+path+query, the handler only scrolls to the fragment (if
any) — no spawned fetch, no epoch change, no navigation; otherwise the
handler is literally the `GoToUrl` handler applied to the resolved URL,
including the epoch increment.  A non-http(s) or unresolvable target is not
acted on. -/
theorem C6_anchor_navigation (o : UrlOracle) (s : WVState) (v : Nat) (href : String)
    (hanchor : alookup s.engine.anchors v = some href) :
    (∀ r, anchorResolved o s v href = some r →
       (r.scheme == "http" || r.scheme == "https") = true →
       samePage o s v r = true →
       step o s (.sendMouseEvent v)
         = (anchorDrained s v,
            match r.fragment with
            | some f => [.scrollFragment v f]
            | none => [])) ∧
    (∀ r, anchorResolved o s v href = some r →
       (r.scheme == "http" || r.scheme == "https") = true →
       samePage o s v r = false →
       step o s (.sendMouseEvent v) = goToUrlStep o (anchorDrained s v) v r ∧
       epochOf (step o s (.sendMouseEvent v)).1 v = (epochOf s v + 1) % U64_MOD) ∧
    (∀ r, anchorResolved o s v href = some r →
       (r.scheme == "http" || r.scheme == "https") = false →
       step o s (.sendMouseEvent v) = (anchorDrained s v, [])) ∧
    (anchorResolved o s v href = none →
       step o s (.sendMouseEvent v) = (anchorDrained s v, [])) := by
  refine ⟨?_, ?_, ?_, ?_⟩
  · intro r hres hscheme hsame
    simp only [step, sendMouseEventStep, hanchor, hres, hscheme, if_true, hsame]
    cases r.fragment <;> rfl
  · intro r hres hscheme hsame
    have hthis : step o s (.sendMouseEvent v) = goToUrlStep o (anchorDrained s v) v r := by
      simp only [step, sendMouseEventStep, hanchor, hres, hscheme, if_true, hsame,
        Bool.false_eq_true, if_false]
    refine ⟨hthis, ?_⟩
    rw [hthis]
    simp [goToUrlStep, epochOf, alookup_aset_self, anchorDrained]
  · intro r hres hscheme
    simp only [step, sendMouseEventStep, hanchor, hres, hscheme, Bool.false_eq_true, if_false]
  · intro hres
    simp only [step, sendMouseEventStep, hanchor, hres]

/-- Current-page URL structure for the C6 witness. -/
def c6cur : ModelUrl := ⟨"http", some "x.test", none, "/p", none, none⟩

/-- Resolved anchor target for the C6 witness: the same page plus fragment
"section2". -/
def c6frag : ModelUrl := ⟨"http", some "x.test", none, "/p", none, some "section2"⟩

/-- URL oracle for the C6 witness: only the current page URL parses, and a
join with "#section2" attaches the fragment. -/
def c6oracle : UrlOracle :=
  { parse := fun str => if str == "http://x.test/p" then some c6cur else none,
    join := fun b f => if f == "#section2" then some { b with fragment := some "section2" } else none,
    toStr := fun _ => "" }

/-- State for the C6 witness: view 7 on the current page with a pending
click on the anchor `#section2`. -/
def c6state : WVState :=
  ⟨0, [], ⟨[7], [(7, "http://x.test/p")], [(7, "#section2")], [], [], [], []⟩⟩

/-- Claim C6 witness: the concrete same-page anchor click produces exactly
a fragment scroll. -/
theorem C6_anchor_navigation_witness :
    alookup c6state.engine.anchors 7 = some "#section2" ∧
    anchorResolved c6oracle c6state 7 "#section2" = some c6frag ∧
    (c6frag.scheme == "http" || c6frag.scheme == "https") = true ∧
    samePage c6oracle c6state 7 c6frag = true ∧
    step c6oracle c6state (.sendMouseEvent 7)
      = (anchorDrained c6state 7, [.scrollFragment 7 "section2"]) := by
  refine ⟨by decide, by decide, by decide, by decide, ?_⟩
  have h := (C6_anchor_navigation c6oracle c6state 7 "#section2" (by decide)).1 c6frag
    (by decide) (by decide) (by decide)
  simpa using h

end IcedWebview
